import Mathlib

/-!
Verification of the url-shortener core against its specification.

The definitions below are a shallow embedding of the TypeScript source:
  - UrlGenerator (utils/urlGenerator.ts): base-62 short-code generation,
    custom-alias sanitization and reservation against a process-local
    collision guard.
  - DatabaseService (services/database.ts): the urls / clicks /
    analytics_summary tables, getUrlByShortCode, recordClick, cleanup.
  - CacheService (services/cache.ts): TTL key-value entries for urls.
  - UrlController.redirectToUrl / createUrl (controllers): the resolve and
    create operations composing cache and persistence, with asynchronous
    click recording modelled as an explicit queue of pending click jobs.

Machine integers are modelled as Nat; wall-clock instants and TTLs are
Nat seconds; SQL DATETIME comparisons become Nat comparisons.
-/

namespace UrlShortener

/-! ## Code generator (utils/urlGenerator.ts) -/

/-- The 62-character alphabet, BASE62_CHARS in the source. -/
def BASE62_CHARS : String := "0123456789ABCDEFGHIJKLMNOPQRSTUVWXYZabcdefghijklmnopqrstuvwxyz"

def BASE62_LIST : List Char := BASE62_CHARS.toList

/-- SHORT_CODE_LENGTH = 8 in the source. -/
def SHORT_CODE_LENGTH : Nat := 8

/-- MAX_RETRIES = 5 in the source. -/
def MAX_RETRIES : Nat := 5

/-- One base-62 digit: BASE62_CHARS[k]. -/
def base62Char (k : Nat) : Char := BASE62_LIST.getD k '0'

/-- The while loop of hashToBase62: repeatedly take num % 62 as the next
digit (prepended) and divide num by 62 until it reaches 0.  The loop is
compiled with explicit fuel; fuel n is enough since n / 62 < n for n > 0. -/
def hashToBase62Loop : Nat → Nat → List Char → List Char
  | 0, _, acc => acc
  | fuel + 1, n, acc =>
    if n = 0 then acc
    else hashToBase62Loop fuel (n / 62) (base62Char (n % 62) :: acc)

/-- The digit list produced by the while loop of hashToBase62, for a digest
with numeric value n. -/
def hashToBase62Digits (n : Nat) : List Char := hashToBase62Loop n n []

/-- The final padding loop of hashToBase62: prepend character 0 until the
result has at least SHORT_CODE_LENGTH characters. -/
def leftPadZeros (l : List Char) : List Char :=
  List.replicate (SHORT_CODE_LENGTH - l.length) '0' ++ l

/-- hashToBase62 applied to a digest with numeric value n. -/
def hashToBase62 (n : Nat) : List Char := leftPadZeros (hashToBase62Digits n)

/-- One candidate short code: hashToBase62(hash).substring(0, SHORT_CODE_LENGTH),
where n is the numeric value of the sha256 digest of the seed. -/
def candidateCode (n : Nat) : List Char := (hashToBase62 n).take SHORT_CODE_LENGTH

/-- Failure mode of generateShortCode: the throw after MAX_RETRIES attempts. -/
inductive GenError where
  | generationExhausted
  deriving DecidableEq, Repr

/-- The do-while loop of generateShortCode.  The entropy of attempt i is
abstracted as seeds i, the numeric value of the digest hashed from the i-th
seed.  attempts counts candidates already produced; the structural fuel
argument equals MAX_RETRIES - attempts, so fuel 0 is exactly the
attempts >= MAX_RETRIES check that throws. -/
def generateFromFuel (seeds : Nat → Nat) (guard : List (List Char)) (attempts : Nat) :
    Nat → Except GenError (List Char × List (List Char))
  | 0 => .error .generationExhausted
  | fuel + 1 =>
    let code := candidateCode (seeds attempts)
    if guard.contains code then generateFromFuel seeds guard (attempts + 1) fuel
    else .ok (code, code :: guard)

/-- generateShortCode: run the retry loop from attempts = 0 against the
process-local collision guard; on success the code is added to the guard. -/
def generateShortCode (seeds : Nat → Nat) (guard : List (List Char)) :
    Except GenError (List Char × List (List Char)) :=
  generateFromFuel seeds guard 0 MAX_RETRIES

/-- Character class [a-zA-Z0-9_-] used by sanitizeAlias and the alias regex. -/
def aliasCharOk (c : Char) : Bool :=
  ('a' ≤ c && c ≤ 'z') || ('A' ≤ c && c ≤ 'Z') || ('0' ≤ c && c ≤ '9') || c = '_' || c = '-'

/-- Character class [0-9A-Za-z] used by the short-code regexes. -/
def alnumOk (c : Char) : Bool :=
  ('0' ≤ c && c ≤ '9') || ('A' ≤ c && c ≤ 'Z') || ('a' ≤ c && c ≤ 'z')

/-- String.prototype.trim: drop whitespace at both ends. -/
def trimChars (l : List Char) : List Char :=
  ((l.dropWhile Char.isWhitespace).reverse.dropWhile Char.isWhitespace).reverse

/-- Collapse every run of two or more consecutive occurrences of ch into a
single occurrence: the global regex replaces of sanitizeAlias. -/
def collapseRuns (ch : Char) : List Char → List Char
  | [] => []
  | [c] => [c]
  | c1 :: c2 :: rest =>
    if c1 = ch && c2 = ch then collapseRuns ch (c2 :: rest)
    else c1 :: collapseRuns ch (c2 :: rest)

/-- sanitizeAlias: lower-case, trim, strip characters outside [a-zA-Z0-9_-],
collapse runs of underscores, collapse runs of hyphens. -/
def sanitizeAlias (a : List Char) : List Char :=
  collapseRuns '-' (collapseRuns '_' ((trimChars (a.map Char.toLower)).filter aliasCharOk))

/-- Failure modes of generateCustomAlias, in the order the source checks them. -/
inductive AliasError where
  | lengthOutOfRange
  | invalidChars
  | aliasAlreadyReserved
  deriving DecidableEq, Repr

/-- generateCustomAlias: sanitize, check length 3..20, check the
[a-zA-Z0-9_-]+ regex, reject if present in the collision guard, otherwise
reserve (add to the guard) and return the sanitized alias. -/
def generateCustomAlias (rawAlias : List Char) (guard : List (List Char)) :
    Except AliasError (List Char × List (List Char)) :=
  let clean := sanitizeAlias rawAlias
  if clean.length < 3 || 20 < clean.length then .error .lengthOutOfRange
  else if !(!clean.isEmpty && clean.all aliasCharOk) then .error .invalidChars
  else if guard.contains clean then .error .aliasAlreadyReserved
  else .ok (clean, clean :: guard)

/-- UrlGenerator.isValidShortCode: non-empty, length exactly
SHORT_CODE_LENGTH, and matching [0-9A-Za-z]+. -/
def isValidShortCode (code : List Char) : Bool :=
  if code.isEmpty || code.length ≠ SHORT_CODE_LENGTH then false
  else !code.isEmpty && code.all alnumOk

/-! ## Persistence layer (services/database.ts) -/

/-- A row of the urls table (interface IUrl).  expiresAt is an epoch
second; absent columns are Option. -/
structure Url where
  id : String
  shortCode : String
  originalUrl : String
  title : Option String := none
  description : Option String := none
  expiresAt : Option Nat := none
  isActive : Bool := true
  userId : Option String := none
  customAlias : Option String := none
  password : Option String := none
  maxClicks : Option Nat := none
  currentClicks : Nat := 0
  deriving DecidableEq, Repr

/-- A row of the clicks table (the columns the core queries touch). -/
structure Click where
  id : String
  urlId : String
  shortCode : String
  ipAddress : String
  timestamp : Nat
  isUnique : Bool
  deriving DecidableEq, Repr

/-- A row of the analytics_summary table. -/
structure Summary where
  urlId : String
  totalClicks : Nat := 0
  uniqueClicks : Nat := 0
  lastClickAt : Option Nat := none
  deriving DecidableEq, Repr

/-- The database: urls, clicks and analytics_summary tables. -/
structure Db where
  urls : List Url
  clicks : List Click
  summaries : List Summary
  deriving DecidableEq, Repr

/-- The WHERE short_code = ? OR custom_alias = ? disjunct of
getUrlByShortCode. -/
def matchesKey (u : Url) (key : String) : Bool :=
  u.shortCode == key || u.customAlias == some key

/-- The is_active = 1 AND (expires_at IS NULL OR expires_at > now)
conjunct of getUrlByShortCode. -/
def liveAt (u : Url) (now : Nat) : Bool :=
  u.isActive && (match u.expiresAt with | none => true | some e => now < e)

/-- getUrlByShortCode: the row matching the key by code or alias that is
active and unexpired at query time, if any. -/
def getUrlByShortCode (db : Db) (key : String) (now : Nat) : Option Url :=
  db.urls.find? (fun u => matchesKey u key && liveAt u now)

/-- Lookup of a urls row by primary key (getUrlById). -/
def urlById (db : Db) (uid : String) : Option Url :=
  db.urls.find? (fun u => u.id == uid)

/-- Lookup of an analytics_summary row by url_id. -/
def summaryById (db : Db) (uid : String) : Option Summary :=
  db.summaries.find? (fun s => s.urlId == uid)

/-- The window predicate timestamp > datetime(now, -1 day) of
isUniqueClick, with 86400 seconds to the day. -/
def withinLastDay (now ts : Nat) : Bool := now - 86400 < ts

/-- isUniqueClick: no prior clicks row for the same url from the same
address within the last 24 hours. -/
def isUniqueClick (db : Db) (uid ip : String) (now : Nat) : Bool :=
  !(db.clicks.any (fun c => c.urlId == uid && c.ipAddress == ip && withinLastDay now c.timestamp))

/-- The click payload prepared by trackAnalyticsAsync (the fields recordClick
uses for its own logic). -/
structure ClickData where
  urlId : String
  shortCode : String
  ipAddress : String
  deriving DecidableEq, Repr

/-- First statement of recordClick: INSERT INTO clicks. -/
def insertClick (cd : ClickData) (newId : String) (isU : Bool) (now : Nat) (db : Db) : Db :=
  { db with clicks := db.clicks ++
      [{ id := newId, urlId := cd.urlId, shortCode := cd.shortCode,
         ipAddress := cd.ipAddress, timestamp := now, isUnique := isU }] }

/-- Second statement of recordClick:
UPDATE urls SET current_clicks = current_clicks + 1 WHERE id = ?. -/
def incrementClicks (uid : String) (db : Db) : Db :=
  { db with urls := db.urls.map (fun u =>
      if u.id == uid then { u with currentClicks := u.currentClicks + 1 } else u) }

/-- Third statement of recordClick (updateAnalyticsSummary): bump
total_clicks, bump unique_clicks when the click was unique, and stamp
last_click_at. -/
def updateAnalyticsSummary (uid : String) (isU : Bool) (now : Nat) (db : Db) : Db :=
  { db with summaries := db.summaries.map (fun s =>
      if s.urlId == uid then
        { s with totalClicks := s.totalClicks + 1,
                 uniqueClicks := s.uniqueClicks + (if isU then 1 else 0),
                 lastClickAt := some now }
      else s) }

/-- recordClick is a sequence of three separately committed SQL statements,
run after the uniqueness probe; there is no enclosing transaction in the
source, so the list order is the commit order. -/
def recordClickSteps (db : Db) (cd : ClickData) (newId : String) (now : Nat) : List (Db → Db) :=
  let isU := isUniqueClick db cd.urlId cd.ipAddress now
  [insertClick cd newId isU now, incrementClicks cd.urlId, updateAnalyticsSummary cd.urlId isU now]

/-- The state after the first k statements of recordClick have committed. -/
def recordClickPartial (db : Db) (cd : ClickData) (newId : String) (now : Nat) (k : Nat) : Db :=
  ((recordClickSteps db cd newId now).take k).foldl (fun s f => f s) db

/-- recordClick run to completion: all three statements committed. -/
def recordClick (db : Db) (cd : ClickData) (newId : String) (now : Nat) : Db :=
  (recordClickSteps db cd newId now).foldl (fun s f => f s) db

/-- cleanup: DELETE FROM urls WHERE expires_at < now AND expires_at IS NOT
NULL, and prune clicks older than the two-year retention horizon
(63072000 seconds). -/
def cleanup (db : Db) (now : Nat) : Db :=
  { db with
    urls := db.urls.filter (fun u =>
      !(match u.expiresAt with | none => false | some e => e < now)),
    clicks := db.clicks.filter (fun c => !(c.timestamp < now - 63072000)) }

/-! ## Cache layer (services/cache.ts) -/

/-- A cached urls row with its absolute expiry instant (store time + ttl). -/
structure CacheEntry where
  value : Url
  expireAt : Nat
  deriving DecidableEq, Repr

/-- The url namespace of the cache, keyed by short code. -/
abbrev Cache := List (String × CacheEntry)

/-- cache.get: the stored value while its ttl has not elapsed. -/
def cacheGet (c : Cache) (key : String) (now : Nat) : Option Url :=
  match c.find? (fun kv => kv.1 == key) with
  | some kv => if now < kv.2.expireAt then some kv.2.value else none
  | none => none

/-- cache.set: replace any entry under the key; the entry lives for ttl
seconds. -/
def cacheSet (c : Cache) (key : String) (u : Url) (now ttl : Nat) : Cache :=
  (key, { value := u, expireAt := now + ttl }) :: List.filter (fun kv => kv.1 != key) c

/-! ## Resolution orchestrator (UrlController) -/

/-- Whole-system state: the database, the url cache, and the queue of click
jobs scheduled by setImmediate in trackAnalyticsAsync but not yet run. -/
structure Sys where
  db : Db
  cache : Cache
  queue : List ClickData
  deriving DecidableEq, Repr

/-- The distinct user-visible outcomes of redirectToUrl. -/
inductive ResolveOutcome where
  | invalidCode
  | notFound
  | expired
  | inactive
  | ceilingReached
  | redirect (dest : String)
  deriving DecidableEq, Repr

/-- ValidationService.validateShortCode: the pattern [0-9A-Za-z] of length 8
checked at the top of redirectToUrl. -/
def isValidShortCodeKey (key : String) : Bool :=
  key.toList.length == 8 && key.toList.all alnumOk

/-- The expiry check of redirectToUrl: url.expiresAt && new Date() >
url.expiresAt (a Date object is always truthy). -/
def expiredCheck (u : Url) (now : Nat) : Bool :=
  match u.expiresAt with | none => false | some e => e < now

/-- The ceiling check of redirectToUrl: url.maxClicks && url.currentClicks >=
url.maxClicks (the number 0 is falsy in the source language). -/
def ceilingCheck (u : Url) : Bool :=
  match u.maxClicks with | none => false | some m => m ≠ 0 && m ≤ u.currentClicks

/-- The lookup phase of redirectToUrl: cache first, on a miss query
persistence and back-fill the cache. -/
def resolveLookup (s : Sys) (key : String) (now ttl : Nat) : Option Url × Cache :=
  match cacheGet s.cache key now with
  | some u => (some u, s.cache)
  | none =>
    match getUrlByShortCode s.db key now with
    | some u => (some u, cacheSet s.cache key u now ttl)
    | none => (none, s.cache)

/-- redirectToUrl: validate the key, look the mapping up (cache, then
persistence with back-fill), run the expiry / active / ceiling checks in
source order, then schedule the click job, optimistically bump the cached
click count, and redirect. -/
def redirectToUrl (s : Sys) (key ip : String) (now ttl : Nat) : ResolveOutcome × Sys :=
  if !isValidShortCodeKey key then (.invalidCode, s)
  else
    match resolveLookup s key now ttl with
    | (none, c1) => (.notFound, { s with cache := c1 })
    | (some u, c1) =>
      if expiredCheck u now then (.expired, { s with cache := c1 })
      else if !u.isActive then (.inactive, { s with cache := c1 })
      else if ceilingCheck u then (.ceilingReached, { s with cache := c1 })
      else
        let u' := { u with currentClicks := u.currentClicks + 1 }
        (.redirect u.originalUrl,
         { s with
             cache := cacheSet c1 key u' now ttl,
             queue := s.queue ++ [{ urlId := u.id, shortCode := u.shortCode, ipAddress := ip }] })

/-- Run the oldest scheduled click job: recordClick on the database, with
newId the generated row id.  A no-op when no job is pending. -/
def processClick (s : Sys) (newId : String) (now : Nat) : Sys :=
  match s.queue with
  | [] => s
  | cd :: rest => { s with db := recordClick s.db cd newId now, queue := rest }

/-- Failure mode of DatabaseService.createUrl: the duplicate pre-check. -/
inductive CreateError where
  | duplicateKey
  deriving DecidableEq, Repr

/-- The validated creation payload (interface IUrlCreate, fields the core
logic reads). -/
structure CreateRequest where
  originalUrl : String
  expiresAt : Option Nat := none
  customAlias : Option String := none
  maxClicks : Option Nat := none
  deriving DecidableEq, Repr

/-- DatabaseService.createUrl: reject when a row already holds the short
code, or the custom alias when one is given; otherwise insert the urls row
together with a zeroed analytics_summary row. -/
def dbCreateUrl (db : Db) (u : Url) : Except CreateError Db :=
  if db.urls.any (fun v =>
      v.shortCode == u.shortCode ||
      (match u.customAlias with | some a => v.customAlias == some a | none => false)) then
    .error .duplicateKey
  else
    .ok { db with urls := db.urls ++ [u],
                  summaries := db.summaries ++ [{ urlId := u.id }] }

/-- The urls row UrlController.createUrl builds for a creation request:
active, zero clicks, with the generated code and row id. -/
def mkUrlRow (req : CreateRequest) (code uid : String) : Url :=
  { id := uid, shortCode := code, originalUrl := req.originalUrl,
    expiresAt := req.expiresAt, isActive := true,
    customAlias := req.customAlias, maxClicks := req.maxClicks, currentClicks := 0 }

/-- UrlController.createUrl after validation: build the row (active, zero
clicks) for the generated code, insert it, and write the row through to the
cache under its short code.  The generated code and row id are parameters
since the generator and uuid are modelled separately. -/
def createUrl (s : Sys) (req : CreateRequest) (code uid : String) (now ttl : Nat) :
    Except CreateError (String × Sys) :=
  match dbCreateUrl s.db (mkUrlRow req code uid) with
  | .error e => .error e
  | .ok db1 =>
    .ok (code, { s with db := db1, cache := cacheSet s.cache code (mkUrlRow req code uid) now ttl })

/-! ## Synchronized resolution (for the ceiling invariant) -/

/-- One synchronized resolution request: a caller address, the instant of
the request, and the row id the click insert would use. -/
structure SyncOp where
  ip : String
  time : Nat
  clickId : String
  deriving DecidableEq, Repr

/-- A resolve whose scheduled click job is run before anything else
happens: redirectToUrl immediately followed by processClick. -/
def resolveSync (s : Sys) (key : String) (op : SyncOp) (ttl : Nat) : ResolveOutcome × Sys :=
  let r := redirectToUrl s key op.ip op.time ttl
  (r.1, processClick r.2 op.clickId op.time)

/-- Run a sequence of synchronized resolves of one key. -/
def runSync (s : Sys) (key : String) (ttl : Nat) : List SyncOp → Sys
  | [] => s
  | op :: ops => runSync (resolveSync s key op ttl).2 key ttl ops

/-- State well-formedness for one link with a click ceiling: no pending
click jobs; the key resolves only to rows of this link; this link's row
(unique by id) carries the ceiling and respects it; and any cache entry
under the key stores a current database row of this link. -/
def linkInv (key lid : String) (N : Nat) (s : Sys) : Prop :=
  s.queue = [] ∧
  (∀ u ∈ s.db.urls, matchesKey u key = true → u.id = lid) ∧
  (∀ u ∈ s.db.urls, u.id = lid →
    matchesKey u key = true ∧ u.maxClicks = some N ∧ u.currentClicks ≤ N) ∧
  (∀ u ∈ s.db.urls, ∀ v ∈ s.db.urls, u.id = lid → v.id = lid → u = v) ∧
  (∀ kv ∈ s.cache, kv.1 = key → kv.2.value ∈ s.db.urls ∧ kv.2.value.id = lid)

/-! ## Concrete states used in counterexamples and witnesses -/

/-- A link whose expiry instant 50 is already past at instant 100. -/
def exUrl : Url :=
  { id := "u1", shortCode := "abcd1234", originalUrl := "http://x.example/",
    expiresAt := some 50, isActive := true }

/-- A database holding only exUrl and its zeroed summary row. -/
def exDb : Db := { urls := [exUrl], clicks := [], summaries := [{ urlId := "u1" }] }

/-- A link with a click ceiling of 2 and no clicks yet. -/
def cUrl : Url :=
  { id := "u1", shortCode := "abcd1234", originalUrl := "http://x.example/",
    maxClicks := some 2, currentClicks := 0 }

/-- Initial system state for the ceiling scenario: only cUrl, cold cache,
no pending click jobs. -/
def cS0 : Sys :=
  { db := { urls := [cUrl], clicks := [], summaries := [{ urlId := "u1" }] },
    cache := [], queue := [] }

/-- The ceiling scenario: resolve at instant 0 (cache ttl 10), resolve
again at instant 20 after the cache entry has lapsed but before either
click job has run, run both click jobs, resolve a third time at instant 25
against the still-live cache entry written at instant 20, then run the
third click job. -/
def cS1 : Sys := (redirectToUrl cS0 "abcd1234" "ip1" 0 10).2

def cS2 : Sys := (redirectToUrl cS1 "abcd1234" "ip2" 20 10).2

def cS3 : Sys := processClick cS2 "c1" 21

def cS4 : Sys := processClick cS3 "c2" 22

def cS5 : Sys := (redirectToUrl cS4 "abcd1234" "ip3" 25 10).2

def cS6 : Sys := processClick cS5 "c3" 26

/-- A state in which the ceiling-2 link has already collected its two
permitted clicks in persistence. -/
def c2Full : Sys :=
  { db := { urls := [{ cUrl with currentClicks := 2 }], clicks := [],
            summaries := [{ urlId := "u1" }] },
    cache := [], queue := [] }

/-- A click payload for the atomicity analysis of recordClick. -/
def c3Cd : ClickData := { urlId := "u1", shortCode := "abcd1234", ipAddress := "1.2.3.4" }

/-- The database of the ceiling scenario, reused for recordClick. -/
def c3Db : Db := { urls := [cUrl], clicks := [], summaries := [{ urlId := "u1" }] }

/-- A creation request with no expiry, alias or ceiling. -/
def c7Req : CreateRequest := { originalUrl := "http://x.example/" }

/-- An empty system state. -/
def c7S0 : Sys := { db := { urls := [], clicks := [], summaries := [] }, cache := [], queue := [] }

/-- The row created for c7Req with code abcd1234 and id u1. -/
def c7Url : Url :=
  { id := "u1", shortCode := "abcd1234", originalUrl := "http://x.example/",
    expiresAt := none, isActive := true, customAlias := none,
    maxClicks := none, currentClicks := 0 }

/-- The state after creating c7Req in c7S0 at instant 0 with cache ttl 10. -/
def c7S1 : Sys :=
  { db := { urls := [c7Url], clicks := [], summaries := [{ urlId := "u1" }] },
    cache := [("abcd1234", { value := c7Url, expireAt := 10 })], queue := [] }

/-- A creation request carrying the custom alias abc, which the upstream
validation accepts (3..20 characters of letters, digits, hyphen,
underscore). -/
def aliasReq : CreateRequest :=
  { originalUrl := "http://x.example/", customAlias := some "abc" }

/-- The row created for aliasReq: the controller uses the reserved alias as
the short code. -/
def aliasUrl : Url :=
  { id := "u1", shortCode := "abc", originalUrl := "http://x.example/",
    expiresAt := none, isActive := true, customAlias := some "abc",
    maxClicks := none, currentClicks := 0 }

/-- The state after creating aliasReq in c7S0 at instant 0 with cache
ttl 10. -/
def aliasS1 : Sys :=
  { db := { urls := [aliasUrl], clicks := [], summaries := [{ urlId := "u1" }] },
    cache := [("abc", { value := aliasUrl, expireAt := 10 })], queue := [] }

end UrlShortener

namespace UrlShortener

/-! ## Generator lemmas -/

theorem zeroChar_mem : '0' ∈ BASE62_LIST := by decide

theorem base62Char_mem (k : Nat) : base62Char k ∈ BASE62_LIST := by
  unfold base62Char
  by_cases h : k < BASE62_LIST.length
  · rw [List.getD_eq_getElem?_getD, List.getElem?_eq_getElem h]
    exact List.getElem_mem h
  · rw [List.getD_eq_getElem?_getD, List.getElem?_eq_none (Nat.le_of_not_lt h)]
    exact zeroChar_mem

theorem hashToBase62Loop_mem (fuel : Nat) :
    ∀ n acc c, c ∈ hashToBase62Loop fuel n acc → c ∈ BASE62_LIST ∨ c ∈ acc := by
  induction fuel with
  | zero => intro n acc c h; right; simpa [hashToBase62Loop] using h
  | succ fuel ih =>
    intro n acc c h
    simp only [hashToBase62Loop] at h
    by_cases hn : n = 0
    · rw [if_pos hn] at h; right; exact h
    · rw [if_neg hn] at h
      rcases ih _ _ _ h with h1 | h2
      · left; exact h1
      · rcases List.mem_cons.mp h2 with rfl | h3
        · left; exact base62Char_mem _
        · right; exact h3

theorem hashToBase62_mem (n : Nat) : ∀ c ∈ hashToBase62 n, c ∈ BASE62_LIST := by
  intro c hc
  unfold hashToBase62 leftPadZeros at hc
  rcases List.mem_append.mp hc with h | h
  · rw [List.eq_of_mem_replicate h]; exact zeroChar_mem
  · unfold hashToBase62Digits at h
    rcases hashToBase62Loop_mem _ _ _ _ h with h1 | h2
    · exact h1
    · cases h2

theorem hashToBase62_length (n : Nat) : SHORT_CODE_LENGTH ≤ (hashToBase62 n).length := by
  unfold hashToBase62 leftPadZeros
  rw [List.length_append, List.length_replicate]
  omega

theorem candidateCode_length (n : Nat) : (candidateCode n).length = SHORT_CODE_LENGTH := by
  unfold candidateCode
  rw [List.length_take]
  have := hashToBase62_length n
  omega

theorem candidateCode_mem (n : Nat) : ∀ c ∈ candidateCode n, c ∈ BASE62_LIST := by
  intro c hc
  exact hashToBase62_mem n c (List.take_subset _ _ hc)

theorem generateFromFuel_ok (seeds : Nat → Nat) (guard : List (List Char)) :
    ∀ fuel attempts code g',
      generateFromFuel seeds guard attempts fuel = .ok (code, g') →
      guard.contains code = false ∧ g' = code :: guard ∧
      ∃ i, i < fuel ∧ code = candidateCode (seeds (attempts + i)) := by
  intro fuel
  induction fuel with
  | zero => intro attempts code g' h; simp [generateFromFuel] at h
  | succ fuel ih =>
    intro attempts code g' h
    simp only [generateFromFuel] at h
    by_cases hc : guard.contains (candidateCode (seeds attempts)) = true
    · rw [if_pos hc] at h
      obtain ⟨h1, h2, i, hi, h3⟩ := ih (attempts + 1) code g' h
      refine ⟨h1, h2, i + 1, by omega, ?_⟩
      rw [h3]
      have e : attempts + 1 + i = attempts + (i + 1) := by omega
      rw [e]
    · rw [if_neg hc] at h
      injection h with h
      injection h with hcode hg
      subst hcode; subst hg
      exact ⟨Bool.not_eq_true _ ▸ Bool.of_not_eq_true hc, rfl, 0, by omega, by rw [Nat.add_zero]⟩

theorem generateFromFuel_error (seeds : Nat → Nat) (guard : List (List Char)) :
    ∀ fuel attempts,
      (generateFromFuel seeds guard attempts fuel = .error .generationExhausted ↔
        ∀ i, i < fuel → guard.contains (candidateCode (seeds (attempts + i))) = true) := by
  intro fuel
  induction fuel with
  | zero => intro attempts; simp [generateFromFuel]
  | succ fuel ih =>
    intro attempts
    simp only [generateFromFuel]
    by_cases hc : guard.contains (candidateCode (seeds attempts)) = true
    · rw [if_pos hc, ih (attempts + 1)]
      constructor
      · intro h i hi
        cases i with
        | zero => simpa using hc
        | succ j =>
          have := h j (by omega)
          have e : attempts + 1 + j = attempts + (j + 1) := by omega
          rwa [e] at this
      · intro h i hi
        have := h (i + 1) (by omega)
        have e : attempts + (i + 1) = attempts + 1 + i := by omega
        rwa [e] at this
    · rw [if_neg hc]
      constructor
      · intro h; cases h
      · intro h
        exact absurd (by simpa using h 0 (by omega)) hc

theorem generateShortCode_ok_shape (seeds : Nat → Nat) (guard : List (List Char))
    (code : List Char) (g' : List (List Char))
    (h : generateShortCode seeds guard = .ok (code, g')) :
    code.length = SHORT_CODE_LENGTH ∧ ∀ c ∈ code, c ∈ BASE62_LIST := by
  obtain ⟨-, -, i, -, rfl⟩ := generateFromFuel_ok seeds guard MAX_RETRIES 0 code g' h
  exact ⟨candidateCode_length _, candidateCode_mem _⟩

/-- Claim C4: every short code returned by the generator has length exactly
SHORT_CODE_LENGTH (8) and consists only of characters of the 62-character
alphabet BASE62_CHARS. -/
theorem C4_generated_code_shape (seeds : Nat → Nat) (guard : List (List Char))
    (code : List Char) (g' : List (List Char))
    (h : generateShortCode seeds guard = .ok (code, g')) :
    code.length = SHORT_CODE_LENGTH ∧ ∀ c ∈ code, c ∈ BASE62_LIST :=
  generateShortCode_ok_shape seeds guard code g' h

theorem C4_generated_code_shape_witness :
    (candidateCode 0).length = SHORT_CODE_LENGTH ∧ '0' ∈ BASE62_LIST :=
  ⟨(C4_generated_code_shape (fun _ => 0) [] (candidateCode 0) [candidateCode 0] rfl).1,
   (C4_generated_code_shape (fun _ => 0) [] (candidateCode 0) [candidateCode 0] rfl).2
     '0' (by decide)⟩

/-- Claim C5: generateShortCode fails with GenerationExhausted exactly when
all MAX_RETRIES (5) candidate codes drawn are already in the process-local
collision guard; whenever some candidate within the budget is not in the
guard, the first such candidate is returned and added to the guard. -/
theorem C5_generation_retry_budget (seeds : Nat → Nat) (guard : List (List Char)) :
    (generateShortCode seeds guard = .error .generationExhausted ↔
      ∀ i, i < MAX_RETRIES → guard.contains (candidateCode (seeds i)) = true) ∧
    (∀ code g', generateShortCode seeds guard = .ok (code, g') →
      guard.contains code = false ∧ g' = code :: guard ∧
      ∃ i, i < MAX_RETRIES ∧ code = candidateCode (seeds i)) := by
  constructor
  · simpa using generateFromFuel_error seeds guard MAX_RETRIES 0
  · intro code g' h
    simpa using generateFromFuel_ok seeds guard MAX_RETRIES 0 code g' h

theorem C5_generation_retry_budget_witness :
    ([] : List (List Char)).contains (candidateCode 0) = false ∧
    [candidateCode 0] = candidateCode 0 :: [] ∧
    ∃ i, i < MAX_RETRIES ∧ candidateCode 0 = candidateCode ((fun _ : Nat => 0) i) :=
  (C5_generation_retry_budget (fun _ => 0) []).2 (candidateCode 0) [candidateCode 0] rfl

theorem base62_alnum : ∀ c ∈ BASE62_LIST, alnumOk c = true := by decide

/-- Claim C10: every code returned by generateShortCode is accepted by the
generator's own validity check isValidShortCode. -/
theorem C10_generate_agrees_with_validate (seeds : Nat → Nat) (guard : List (List Char))
    (code : List Char) (g' : List (List Char))
    (h : generateShortCode seeds guard = .ok (code, g')) :
    isValidShortCode code = true := by
  obtain ⟨hlen, hmem⟩ := generateShortCode_ok_shape seeds guard code g' h
  unfold isValidShortCode
  have hne : code.isEmpty = false := by
    cases code with
    | nil => simp [SHORT_CODE_LENGTH] at hlen
    | cons a l => rfl
  rw [hne, hlen]
  simp only [SHORT_CODE_LENGTH, ne_eq, not_true_eq_false, decide_False, Bool.or_false,
    Bool.not_false, Bool.true_and]
  rw [if_neg (by decide), List.all_eq_true]
  intro c hc
  simpa using base62_alnum c (hmem c hc)

theorem C10_generate_agrees_with_validate_witness :
    isValidShortCode (candidateCode 0) = true :=
  C10_generate_agrees_with_validate (fun _ => 0) [] (candidateCode 0) [candidateCode 0] rfl

/-! ## Persistence-query lemmas -/

theorem liveAt_true_iff (u : Url) (now : Nat) :
    liveAt u now = true ↔
      u.isActive = true ∧ (u.expiresAt = none ∨ ∃ e, u.expiresAt = some e ∧ now < e) := by
  unfold liveAt
  rcases hx : u.expiresAt with _ | e <;> cases ha : u.isActive <;> simp [hx, ha]

/-- Claim C9: the persistence lookup returns a row only when it matches the
key by code or alias, is active, and is unexpired at query time; it returns
absent exactly when every matching row is inactive or expired. -/
theorem C9_findMapping_predicate (db : Db) (key : String) (now : Nat) :
    (∀ u, getUrlByShortCode db key now = some u →
      u ∈ db.urls ∧ matchesKey u key = true ∧ u.isActive = true ∧
      (u.expiresAt = none ∨ ∃ e, u.expiresAt = some e ∧ now < e)) ∧
    (getUrlByShortCode db key now = none ↔
      ∀ u ∈ db.urls, matchesKey u key = true →
        u.isActive = false ∨ ∃ e, u.expiresAt = some e ∧ e ≤ now) := by
  constructor
  · intro u hu
    have hm := List.mem_of_find?_eq_some hu
    have hp := List.find?_some hu
    rw [Bool.and_eq_true] at hp
    obtain ⟨hp1, hp2⟩ := hp
    obtain ⟨ha, he⟩ := (liveAt_true_iff u now).mp hp2
    exact ⟨hm, hp1, ha, he⟩
  · rw [getUrlByShortCode, List.find?_eq_none]
    constructor
    · intro h u hu hm
      have h2 := h u hu
      have hlf : liveAt u now = false := by
        cases hl : liveAt u now
        · rfl
        · exact absurd (by rw [Bool.and_eq_true]; exact ⟨hm, hl⟩) h2
      rcases hx : u.expiresAt with _ | e
      · cases ha : u.isActive
        · left; rfl
        · exfalso
          have : liveAt u now = true := (liveAt_true_iff u now).mpr ⟨ha, Or.inl hx⟩
          rw [this] at hlf; cases hlf
      · cases ha : u.isActive
        · left; rfl
        · right
          refine ⟨e, rfl, ?_⟩
          by_contra hle
          push_neg at hle
          have : liveAt u now = true :=
            (liveAt_true_iff u now).mpr ⟨ha, Or.inr ⟨e, hx, hle⟩⟩
          rw [this] at hlf; cases hlf
    · intro h u hu
      rw [Bool.and_eq_true]
      rintro ⟨hm, hl⟩
      obtain ⟨ha, he⟩ := (liveAt_true_iff u now).mp hl
      rcases h u hu hm with ha' | ⟨e, hx, hle⟩
      · rw [ha] at ha'; cases ha'
      · rcases he with hnone | ⟨e', hx', hlt⟩
        · rw [hnone] at hx; cases hx
        · rw [hx'] at hx
          injection hx with hx
          omega

theorem C9_findMapping_predicate_witness :
    getUrlByShortCode exDb "abcd1234" 100 = none :=
  (C9_findMapping_predicate exDb "abcd1234" 100).2.mpr (by
    intro u hu hm
    have hu' : u = exUrl := by simpa [exDb] using hu
    subst hu'
    right
    exact ⟨50, rfl, by omega⟩)

end UrlShortener

namespace UrlShortener

/-! ## Alias sanitization lemmas -/

theorem collapseRuns_subset (ch : Char) : ∀ l, ∀ c ∈ collapseRuns ch l, c ∈ l := by
  intro l
  induction l with
  | nil => intro c hc; simp [collapseRuns] at hc
  | cons c1 tl ih =>
    cases tl with
    | nil => intro c hc; simpa [collapseRuns] using hc
    | cons c2 rest =>
      intro c hc
      simp only [collapseRuns] at hc
      by_cases h : (decide (c1 = ch) && decide (c2 = ch)) = true
      · rw [if_pos h] at hc
        exact List.mem_cons_of_mem _ (ih c hc)
      · rw [if_neg h] at hc
        rcases List.mem_cons.mp hc with rfl | h2
        · exact List.mem_cons_self _ _
        · exact List.mem_cons_of_mem _ (ih c h2)

theorem sanitizeAlias_all_ok (a : List Char) : (sanitizeAlias a).all aliasCharOk = true := by
  rw [List.all_eq_true]
  intro c hc
  unfold sanitizeAlias at hc
  have h1 := collapseRuns_subset '-' _ c hc
  have h2 := collapseRuns_subset '_' _ c h1
  exact (List.mem_filter.mp h2).2

/-- Claim C6: reserveAlias normalizes first and then checks, in order:
a normalized length outside 3..20 is rejected with lengthOutOfRange; an
in-range normalized alias already in the collision guard fails with
aliasAlreadyReserved; otherwise it is reserved (added to the guard) and
returned; and after a successful reservation any input normalizing to the
same alias fails with aliasAlreadyReserved. -/
theorem C6_reserveAlias_normalize_then_guard (a b : List Char) (g : List (List Char)) :
    ((sanitizeAlias a).length < 3 ∨ 20 < (sanitizeAlias a).length →
      generateCustomAlias a g = .error .lengthOutOfRange) ∧
    (3 ≤ (sanitizeAlias a).length → (sanitizeAlias a).length ≤ 20 →
      (g.contains (sanitizeAlias a) = true →
        generateCustomAlias a g = .error .aliasAlreadyReserved) ∧
      (g.contains (sanitizeAlias a) = false →
        generateCustomAlias a g = .ok (sanitizeAlias a, sanitizeAlias a :: g))) ∧
    (∀ n g', generateCustomAlias a g = .ok (n, g') → sanitizeAlias b = n →
      generateCustomAlias b g' = .error .aliasAlreadyReserved) := by
  refine ⟨?_, ?_, ?_⟩
  · intro h
    simp only [generateCustomAlias]
    rw [if_pos (by rcases h with h | h <;> simp [h])]
  · intro h3 h20
    have hcond : ¬((decide ((sanitizeAlias a).length < 3) ||
        decide (20 < (sanitizeAlias a).length)) = true) := by
      simp
      omega
    have hne : (sanitizeAlias a).isEmpty = false := by
      cases hs : sanitizeAlias a with
      | nil => rw [hs] at h3; simp at h3
      | cons x xs => rfl
    have hchars : ¬((!(!(sanitizeAlias a).isEmpty && (sanitizeAlias a).all aliasCharOk)) = true) := by
      rw [hne, sanitizeAlias_all_ok a]
      simp
    constructor
    · intro hg
      simp only [generateCustomAlias]
      rw [if_neg hcond, if_neg hchars, if_pos hg]
    · intro hg
      simp only [generateCustomAlias]
      rw [if_neg hcond, if_neg hchars, if_neg (by rw [hg]; simp)]
  · intro n g' hok hb
    simp only [generateCustomAlias] at hok
    by_cases h1 : (decide ((sanitizeAlias a).length < 3) ||
        decide (20 < (sanitizeAlias a).length)) = true
    · rw [if_pos h1] at hok; cases hok
    · rw [if_neg h1] at hok
      by_cases h2 : (!(!(sanitizeAlias a).isEmpty && (sanitizeAlias a).all aliasCharOk)) = true
      · rw [if_pos h2] at hok; cases hok
      · rw [if_neg h2] at hok
        by_cases h3 : g.contains (sanitizeAlias a) = true
        · rw [if_pos h3] at hok; cases hok
        · rw [if_neg h3] at hok
          injection hok with hok
          injection hok with hn hg'
          subst hn
          subst hg'
          simp only [generateCustomAlias]
          rw [hb, if_neg h1, if_neg h2, if_pos (by simp)]

theorem C6_reserveAlias_normalize_then_guard_witness :
    generateCustomAlias ("  My--Alias!! ".toList) [] =
      .ok (sanitizeAlias ("  My--Alias!! ".toList), [sanitizeAlias ("  My--Alias!! ".toList)]) ∧
    generateCustomAlias ("MY-ALIAS".toList) [sanitizeAlias ("  My--Alias!! ".toList)] =
      .error .aliasAlreadyReserved := by
  have h1 :=
    ((C6_reserveAlias_normalize_then_guard ("  My--Alias!! ".toList)
      ("MY-ALIAS".toList) []).2.1 (by decide) (by decide)).2 (by decide)
  exact ⟨h1,
    (C6_reserveAlias_normalize_then_guard ("  My--Alias!! ".toList)
      ("MY-ALIAS".toList) []).2.2 (sanitizeAlias ("  My--Alias!! ".toList))
      [sanitizeAlias ("  My--Alias!! ".toList)] h1 (by decide)⟩

end UrlShortener

namespace UrlShortener

/-! ## recordClick lemmas -/

theorem recordClick_urls (db : Db) (cd : ClickData) (nid : String) (now : Nat) :
    (recordClick db cd nid now).urls =
      db.urls.map (fun u =>
        if u.id == cd.urlId then { u with currentClicks := u.currentClicks + 1 } else u) := rfl

theorem recordClick_clicks (db : Db) (cd : ClickData) (nid : String) (now : Nat) :
    (recordClick db cd nid now).clicks = db.clicks ++
      [{ id := nid, urlId := cd.urlId, shortCode := cd.shortCode, ipAddress := cd.ipAddress,
         timestamp := now, isUnique := isUniqueClick db cd.urlId cd.ipAddress now }] := rfl

theorem recordClick_summaries (db : Db) (cd : ClickData) (nid : String) (now : Nat) :
    (recordClick db cd nid now).summaries =
      db.summaries.map (fun s =>
        if s.urlId == cd.urlId then
          { s with totalClicks := s.totalClicks + 1,
                   uniqueClicks := s.uniqueClicks +
                     (if isUniqueClick db cd.urlId cd.ipAddress now then 1 else 0),
                   lastClickAt := some now }
        else s) := rfl

theorem find?_map_if {α : Type} (idf : α → String) (l : List α) (tid k : String)
    (f : α → α) (hf : ∀ u, idf (f u) = idf u) :
    (l.map (fun u => if idf u == tid then f u else u)).find? (fun u => idf u == k) =
      (l.find? (fun u => idf u == k)).map (fun u => if idf u == tid then f u else u) := by
  induction l with
  | nil => rfl
  | cons a l ih =>
    rw [List.map_cons]
    by_cases ha : (idf a == k) = true
    · have ha' : (idf (if idf a == tid then f a else a) == k) = true := by
        by_cases ht : (idf a == tid) = true
        · rw [if_pos ht, hf]; exact ha
        · rw [if_neg ht]; exact ha
      rw [List.find?_cons_of_pos (p := fun u => idf u == k) _ ha',
        List.find?_cons_of_pos (p := fun u => idf u == k) _ ha, Option.map_some']
    · have ha' : ¬(idf (if idf a == tid then f a else a) == k) = true := by
        by_cases ht : (idf a == tid) = true
        · rw [if_pos ht, hf]; exact ha
        · rw [if_neg ht]; exact ha
      rw [List.find?_cons_of_neg (p := fun u => idf u == k) _ ha',
        List.find?_cons_of_neg (p := fun u => idf u == k) _ ha]
      exact ih

/-- Claim C3 (amended): when the full statement sequence of recordClick
completes, the uniqueness flag is true exactly when no prior click row for
the same link from the same address lies within the 24-hour window; the
click row is inserted; the link's counter is incremented by one; the
analytics summary's total (and, when unique, unique) counters are
incremented; and no other link's row or summary changes.  The statements
are committed one by one, not as one atomic unit (see the counterexample). -/
theorem C3_recordClick_effects (db : Db) (cd : ClickData) (nid : String) (now : Nat) :
    (isUniqueClick db cd.urlId cd.ipAddress now = true ↔
      ¬∃ c ∈ db.clicks, c.urlId = cd.urlId ∧ c.ipAddress = cd.ipAddress ∧
        withinLastDay now c.timestamp = true) ∧
    ((recordClick db cd nid now).clicks = db.clicks ++
      [{ id := nid, urlId := cd.urlId, shortCode := cd.shortCode, ipAddress := cd.ipAddress,
         timestamp := now, isUnique := isUniqueClick db cd.urlId cd.ipAddress now }]) ∧
    (urlById (recordClick db cd nid now) cd.urlId =
      (urlById db cd.urlId).map (fun u => { u with currentClicks := u.currentClicks + 1 })) ∧
    (summaryById (recordClick db cd nid now) cd.urlId =
      (summaryById db cd.urlId).map (fun s =>
        { s with totalClicks := s.totalClicks + 1,
                 uniqueClicks := s.uniqueClicks +
                   (if isUniqueClick db cd.urlId cd.ipAddress now then 1 else 0),
                 lastClickAt := some now })) ∧
    (∀ k, k ≠ cd.urlId →
      urlById (recordClick db cd nid now) k = urlById db k ∧
      summaryById (recordClick db cd nid now) k = summaryById db k) := by
  refine ⟨?_, recordClick_clicks db cd nid now, ?_, ?_, ?_⟩
  · unfold isUniqueClick
    rw [Bool.not_eq_true']
    rw [List.any_eq_false]
    constructor
    · rintro h ⟨c, hc, h1, h2, h3⟩
      have := h c hc
      rw [h1, h2, h3] at this
      simp at this
    · intro h c hc
      by_cases hb : (c.urlId == cd.urlId && (c.ipAddress == cd.ipAddress &&
          withinLastDay now c.timestamp)) = true
      · exfalso
        rw [Bool.and_eq_true, Bool.and_eq_true] at hb
        exact h ⟨c, hc, by simpa using hb.1, by simpa using hb.2.1, hb.2.2⟩
      · simpa using hb
  · unfold urlById
    rw [recordClick_urls]
    rw [find?_map_if Url.id db.urls cd.urlId cd.urlId
      (fun u => { u with currentClicks := u.currentClicks + 1 }) (fun u => rfl)]
    cases hfound : db.urls.find? (fun u => u.id == cd.urlId) with
    | none => rfl
    | some u =>
      rw [Option.map_some', Option.map_some', if_pos (List.find?_some hfound)]
  · unfold summaryById
    rw [recordClick_summaries]
    rw [find?_map_if Summary.urlId db.summaries cd.urlId cd.urlId
      (fun s => { s with totalClicks := s.totalClicks + 1,
                         uniqueClicks := s.uniqueClicks +
                           (if isUniqueClick db cd.urlId cd.ipAddress now then 1 else 0),
                         lastClickAt := some now }) (fun s => rfl)]
    cases hfound : db.summaries.find? (fun s => s.urlId == cd.urlId) with
    | none => rfl
    | some s =>
      rw [Option.map_some', Option.map_some', if_pos (List.find?_some hfound)]
  · intro k hk
    constructor
    · unfold urlById
      rw [recordClick_urls]
      rw [find?_map_if Url.id db.urls cd.urlId k
        (fun u => { u with currentClicks := u.currentClicks + 1 }) (fun u => rfl)]
      cases hfound : db.urls.find? (fun u => u.id == k) with
      | none => rfl
      | some u =>
        have hu : u.id = k := by
          have := List.find?_some hfound
          rwa [beq_iff_eq] at this
        rw [Option.map_some', if_neg (by rw [beq_eq_false_iff_ne.mpr (hu ▸ hk.symm ∘ Eq.symm)]; simp)]
    · unfold summaryById
      rw [recordClick_summaries]
      rw [find?_map_if Summary.urlId db.summaries cd.urlId k
        (fun s => { s with totalClicks := s.totalClicks + 1,
                           uniqueClicks := s.uniqueClicks +
                             (if isUniqueClick db cd.urlId cd.ipAddress now then 1 else 0),
                           lastClickAt := some now }) (fun s => rfl)]
      cases hfound : db.summaries.find? (fun s => s.urlId == k) with
      | none => rfl
      | some s =>
        have hs : s.urlId = k := by
          have := List.find?_some hfound
          rwa [beq_iff_eq] at this
        rw [Option.map_some', if_neg (by rw [beq_eq_false_iff_ne.mpr (hs ▸ hk.symm ∘ Eq.symm)]; simp)]

end UrlShortener

namespace UrlShortener

/-- Claim C3 counterexample: recordClick is three separately committed
statements; stopping after the first leaves a state in which the click row
is inserted but neither counter has moved, which is neither the initial
state nor the completed state, so the operation is not one atomic
all-or-none unit of work. -/
theorem C3_recordClick_not_atomic_counterexample :
    (recordClickPartial c3Db c3Cd "c1" 100 1).clicks.length = c3Db.clicks.length + 1 ∧
    (∀ u ∈ (recordClickPartial c3Db c3Cd "c1" 100 1).urls, u.currentClicks = 0) ∧
    (∀ s ∈ (recordClickPartial c3Db c3Cd "c1" 100 1).summaries, s.totalClicks = 0) ∧
    recordClickPartial c3Db c3Cd "c1" 100 1 ≠ c3Db ∧
    recordClickPartial c3Db c3Cd "c1" 100 1 ≠ recordClick c3Db c3Cd "c1" 100 := by
  decide

theorem C3_recordClick_effects_witness :
    urlById (recordClick c3Db c3Cd "c1" 100) "u1" = some { cUrl with currentClicks := 1 } ∧
    urlById (recordClick c3Db c3Cd "c1" 100) "zz" = urlById c3Db "zz" :=
  ⟨((C3_recordClick_effects c3Db c3Cd "c1" 100).2.2.1).trans (by decide),
   ((C3_recordClick_effects c3Db c3Cd "c1" 100).2.2.2.2 "zz" (by decide)).1⟩

end UrlShortener

namespace UrlShortener

/-! ## Resolution lemmas -/

theorem liveAt_checks (u : Url) (now : Nat) (h : liveAt u now = true) :
    expiredCheck u now = false ∧ u.isActive = true := by
  obtain ⟨ha, he⟩ := (liveAt_true_iff u now).mp h
  refine ⟨?_, ha⟩
  unfold expiredCheck
  rcases he with hnone | ⟨e, hx, hlt⟩
  · rw [hnone]
  · rw [hx]
    simp
    omega

/-- Exhaustive case analysis of redirectToUrl for a well-formed key. -/
theorem redirectToUrl_cases (s : Sys) (key ip : String) (now ttl : Nat)
    (hk : isValidShortCodeKey key = true) :
    (∃ c1, resolveLookup s key now ttl = (none, c1) ∧
      redirectToUrl s key ip now ttl = (.notFound, { s with cache := c1 })) ∨
    (∃ u c1, resolveLookup s key now ttl = (some u, c1) ∧
      ((expiredCheck u now = true ∧
         redirectToUrl s key ip now ttl = (.expired, { s with cache := c1 })) ∨
       (expiredCheck u now = false ∧ u.isActive = false ∧
         redirectToUrl s key ip now ttl = (.inactive, { s with cache := c1 })) ∨
       (expiredCheck u now = false ∧ u.isActive = true ∧ ceilingCheck u = true ∧
         redirectToUrl s key ip now ttl = (.ceilingReached, { s with cache := c1 })) ∨
       (expiredCheck u now = false ∧ u.isActive = true ∧ ceilingCheck u = false ∧
         redirectToUrl s key ip now ttl =
           (.redirect u.originalUrl,
            { s with
                cache := cacheSet c1 key
                  { u with currentClicks := u.currentClicks + 1 } now ttl,
                queue := s.queue ++
                  [{ urlId := u.id, shortCode := u.shortCode, ipAddress := ip }] })))) := by
  rcases hl : resolveLookup s key now ttl with ⟨uOpt, c1⟩
  cases uOpt with
  | none =>
    left
    exact ⟨c1, rfl, by simp [redirectToUrl, hk, hl]⟩
  | some u =>
    right
    refine ⟨u, c1, rfl, ?_⟩
    by_cases he : expiredCheck u now = true
    · left
      exact ⟨he, by simp [redirectToUrl, hk, hl, he]⟩
    · rw [Bool.not_eq_true] at he
      by_cases ha : u.isActive = true
      · by_cases hc : ceilingCheck u = true
        · right; right; left
          exact ⟨he, ha, hc, by simp [redirectToUrl, hk, hl, he, ha, hc]⟩
        · rw [Bool.not_eq_true] at hc
          right; right; right
          exact ⟨he, ha, hc, by simp [redirectToUrl, hk, hl, he, ha, hc]⟩
      · rw [Bool.not_eq_true] at ha
        right; left
        exact ⟨he, ha, by simp [redirectToUrl, hk, hl, he, ha]⟩

end UrlShortener

namespace UrlShortener

/-- Claim C1 (amended): resolve fails with NotFound when no live mapping is
found; the Expired / Inactive / CeilingReached distinctions are made on the
value the lookup returned, so a mapping served from the cache yields
Expired, Inactive or CeilingReached as the claim states, but on a cache
miss the persistence query already filters out expired and inactive rows,
so those mappings resolve as NotFound; only the ceiling check also fires on
the persistence path. -/
theorem C1_resolve_error_taxonomy (s : Sys) (key ip : String) (now ttl : Nat)
    (hk : isValidShortCodeKey key = true) :
    (∀ u, cacheGet s.cache key now = some u →
      (expiredCheck u now = true → (redirectToUrl s key ip now ttl).1 = .expired) ∧
      (expiredCheck u now = false → u.isActive = false →
        (redirectToUrl s key ip now ttl).1 = .inactive) ∧
      (expiredCheck u now = false → u.isActive = true → ceilingCheck u = true →
        (redirectToUrl s key ip now ttl).1 = .ceilingReached) ∧
      (expiredCheck u now = false → u.isActive = true → ceilingCheck u = false →
        (redirectToUrl s key ip now ttl).1 = .redirect u.originalUrl)) ∧
    (cacheGet s.cache key now = none →
      (getUrlByShortCode s.db key now = none →
        (redirectToUrl s key ip now ttl).1 = .notFound) ∧
      (∀ u, getUrlByShortCode s.db key now = some u →
        (ceilingCheck u = true → (redirectToUrl s key ip now ttl).1 = .ceilingReached) ∧
        (ceilingCheck u = false →
          (redirectToUrl s key ip now ttl).1 = .redirect u.originalUrl))) := by
  constructor
  · intro u hcache
    have hl : resolveLookup s key now ttl = (some u, s.cache) := by
      simp [resolveLookup, hcache]
    refine ⟨?_, ?_, ?_, ?_⟩
    · intro he
      simp [redirectToUrl, hk, hl, he]
    · intro he ha
      simp [redirectToUrl, hk, hl, he, ha]
    · intro he ha hc
      simp [redirectToUrl, hk, hl, he, ha, hc]
    · intro he ha hc
      simp [redirectToUrl, hk, hl, he, ha, hc]
  · intro hmiss
    constructor
    · intro hdb
      have hl : resolveLookup s key now ttl = (none, s.cache) := by
        simp [resolveLookup, hmiss, hdb]
      simp [redirectToUrl, hk, hl]
    · intro u hdb
      have hl : resolveLookup s key now ttl = (some u, cacheSet s.cache key u now ttl) := by
        simp [resolveLookup, hmiss, hdb]
      have hdb' : s.db.urls.find? (fun v => matchesKey v key && liveAt v now) = some u := hdb
      have hlive : liveAt u now = true := by
        have := List.find?_some hdb'
        rw [Bool.and_eq_true] at this
        exact this.2
      obtain ⟨he, ha⟩ := liveAt_checks u now hlive
      constructor
      · intro hc
        simp [redirectToUrl, hk, hl, he, ha, hc]
      · intro hc
        simp [redirectToUrl, hk, hl, he, ha, hc]

/-- Claim C1 counterexample: a mapping that exists in persistence, matches
the key, and is already expired (active, expiry 50 < now 100) resolves as
NotFound rather than Expired when it is not in the cache, because the
persistence query filters expired rows out. -/
theorem C1_resolve_error_taxonomy_counterexample :
    exUrl ∈ exDb.urls ∧ matchesKey exUrl "abcd1234" = true ∧
    exUrl.expiresAt = some 50 ∧ exUrl.isActive = true ∧ 50 < 100 ∧
    (redirectToUrl { db := exDb, cache := [], queue := [] }
      "abcd1234" "1.2.3.4" 100 3600).1 = .notFound ∧
    (redirectToUrl { db := exDb, cache := [], queue := [] }
      "abcd1234" "1.2.3.4" 100 3600).1 ≠ .expired := by
  decide

theorem C1_resolve_error_taxonomy_witness :
    (redirectToUrl
      { db := exDb,
        cache := [("abcd1234", { value := exUrl, expireAt := 1000 })],
        queue := [] } "abcd1234" "1.2.3.4" 100 3600).1 = .expired :=
  (((C1_resolve_error_taxonomy
    { db := exDb, cache := [("abcd1234", { value := exUrl, expireAt := 1000 })], queue := [] }
    "abcd1234" "1.2.3.4" 100 3600 (by decide)).1 exUrl (by decide)).1 (by decide))

theorem cacheGet_cacheSet_same (c : Cache) (key : String) (u : Url) (now ttl t : Nat) :
    cacheGet (cacheSet c key u now ttl) key t = if t < now + ttl then some u else none := by
  unfold cacheGet cacheSet
  simp

/-- Claim C7 (amended): a successful createShortLink immediately followed
by resolveShortLink with the key it returned yields the destination address
supplied at creation when that key passes the resolver's short-code format
gate (8 alphanumeric characters, as every generator-produced code does);
when the returned key fails the gate — a reserved custom alias that is not
8 alphanumerics — the resolve is rejected as an invalid short code and the
round trip fails (see the counterexample). -/
theorem C7_create_then_resolve (s : Sys) (req : CreateRequest) (code uid ip : String)
    (now ttl : Nat) (httl : 1 ≤ ttl)
    (hexp : req.expiresAt = none ∨ ∃ e, req.expiresAt = some e ∧ now < e)
    (code' : String) (s' : Sys)
    (hok : createUrl s req code uid now ttl = .ok (code', s')) :
    code' = code ∧
    (isValidShortCodeKey code = true →
      (redirectToUrl s' code ip now ttl).1 = .redirect req.originalUrl) ∧
    (isValidShortCodeKey code = false →
      (redirectToUrl s' code ip now ttl).1 = .invalidCode) := by
  simp only [createUrl] at hok
  cases hdb : dbCreateUrl s.db (mkUrlRow req code uid) with
  | error e => rw [hdb] at hok; cases hok
  | ok db1 =>
    rw [hdb] at hok
    injection hok with hok
    injection hok with hc hs
    subst hc
    subst hs
    refine ⟨rfl, ?_, ?_⟩
    swap
    · intro hk'
      unfold redirectToUrl
      rw [if_pos (by rw [hk']; rfl)]
    intro hk
    have hcache : cacheGet (cacheSet s.cache code (mkUrlRow req code uid) now ttl) code now =
        some (mkUrlRow req code uid) := by
      rw [cacheGet_cacheSet_same, if_pos (by omega)]
    have hl : resolveLookup
        { s with db := db1, cache := cacheSet s.cache code (mkUrlRow req code uid) now ttl }
        code now ttl =
        (some (mkUrlRow req code uid), cacheSet s.cache code (mkUrlRow req code uid) now ttl) := by
      simp [resolveLookup, hcache]
    have he : expiredCheck (mkUrlRow req code uid) now = false := by
      unfold expiredCheck mkUrlRow
      rcases hexp with hnone | ⟨e, hx, hlt⟩
      · simp [hnone]
      · simp [hx]
        omega
    have hcl : ceilingCheck (mkUrlRow req code uid) = false := by
      unfold ceilingCheck mkUrlRow
      rcases hm : req.maxClicks with _ | m
      · simp
      · simp
    have ha : (mkUrlRow req code uid).isActive = true := rfl
    have hred : (redirectToUrl
        { s with db := db1, cache := cacheSet s.cache code (mkUrlRow req code uid) now ttl }
        code ip now ttl).1 = .redirect (mkUrlRow req code uid).originalUrl := by
      simp [redirectToUrl, hk, hl, he, hcl, ha]
    exact hred

/-- Claim C7 counterexample: the upstream validation accepts the custom
alias abc (3..20 characters of letters, digits, hyphen, underscore) and the
generator reserves it, creation succeeds and returns abc as the key, yet
the immediate resolve of that key is rejected by the short-code format gate
(invalid short code) and never yields the destination. -/
theorem C7_create_then_resolve_counterexample :
    generateCustomAlias ("abc".toList) [] = .ok ("abc".toList, ["abc".toList]) ∧
    createUrl c7S0 aliasReq "abc" "u1" 0 10 = .ok ("abc", aliasS1) ∧
    (redirectToUrl aliasS1 "abc" "1.2.3.4" 0 10).1 = .invalidCode ∧
    (redirectToUrl aliasS1 "abc" "1.2.3.4" 0 10).1 ≠ .redirect "http://x.example/" :=
  ⟨rfl, rfl, by decide, by decide⟩

theorem C7_create_then_resolve_witness :
    (redirectToUrl c7S1 "abcd1234" "9.9.9.9" 0 10).1 = .redirect "http://x.example/" ∧
    (redirectToUrl aliasS1 "abc" "9.9.9.9" 0 10).1 = .invalidCode :=
  ⟨(C7_create_then_resolve c7S0 c7Req "abcd1234" "u1" "9.9.9.9" 0 10 (by decide)
      (Or.inl rfl) "abcd1234" c7S1 rfl).2.1 (by decide),
   (C7_create_then_resolve c7S0 aliasReq "abc" "u1" "9.9.9.9" 0 10 (by decide)
      (Or.inl rfl) "abc" aliasS1 rfl).2.2 (by decide)⟩

end UrlShortener

namespace UrlShortener

/-- Claim C8 (amended): runCleanup deletes from persistence every link
whose expiry is before the cleanup instant, and a subsequent resolve of its
key that does not hit a live cache entry fails with NotFound; a stale cache
entry instead yields Expired until it lapses (see the counterexample). -/
theorem C8_cleanup_then_not_found (s : Sys) (key ip : String) (t0 now ttl : Nat)
    (hk : isValidShortCodeKey key = true) (_ht : t0 ≤ now)
    (hmiss : cacheGet s.cache key now = none)
    (hall : ∀ u ∈ s.db.urls, matchesKey u key = true → ∃ e, u.expiresAt = some e ∧ e < t0) :
    (∀ u ∈ s.db.urls, (∃ e, u.expiresAt = some e ∧ e < t0) → u ∉ (cleanup s.db t0).urls) ∧
    (redirectToUrl { s with db := cleanup s.db t0 } key ip now ttl).1 = .notFound := by
  constructor
  · rintro u hu ⟨e, he, hlt⟩ hmem
    have hp := (List.mem_filter.mp hmem).2
    rw [he] at hp
    simp at hp
    omega
  · have hdbnone : getUrlByShortCode (cleanup s.db t0) key now = none := by
      rw [getUrlByShortCode, List.find?_eq_none]
      intro u hu
      rw [Bool.and_eq_true]
      rintro ⟨hm, hl⟩
      have hu' : u ∈ s.db.urls := (List.mem_filter.mp hu).1
      obtain ⟨e, he, hlt⟩ := hall u hu' hm
      have hp := (List.mem_filter.mp hu).2
      rw [he] at hp
      simp at hp
      omega
    have hl : resolveLookup { s with db := cleanup s.db t0 } key now ttl = (none, s.cache) := by
      simp [resolveLookup, hmiss, hdbnone]
    simp [redirectToUrl, hk, hl]

/-- Claim C8 counterexample: cleanup at instant 100 removes the expired
link (expiry 50) from persistence, yet a resolve that hits the still-live
cache entry fails with Expired, not NotFound. -/
theorem C8_cleanup_then_not_found_counterexample :
    (cleanup exDb 100).urls = [] ∧
    (redirectToUrl
      { db := cleanup exDb 100,
        cache := [("abcd1234", { value := exUrl, expireAt := 1000 })],
        queue := [] } "abcd1234" "1.2.3.4" 100 3600).1 = .expired ∧
    (redirectToUrl
      { db := cleanup exDb 100,
        cache := [("abcd1234", { value := exUrl, expireAt := 1000 })],
        queue := [] } "abcd1234" "1.2.3.4" 100 3600).1 ≠ .notFound := by
  decide

theorem C8_cleanup_then_not_found_witness :
    (redirectToUrl
      { db := cleanup exDb 60,
        cache := [],
        queue := [] } "abcd1234" "1.2.3.4" 100 3600).1 = .notFound :=
  (C8_cleanup_then_not_found { db := exDb, cache := [], queue := [] } "abcd1234" "1.2.3.4"
    60 100 3600 (by decide) (by omega) (by decide) (by
      intro u hu hm
      have hu' : u = exUrl := by simpa [exDb] using hu
      subst hu'
      exact ⟨50, rfl, by omega⟩)).2

end UrlShortener

namespace UrlShortener

/-! ## Ceiling invariant lemmas -/

theorem cacheGet_mem (c : Cache) (key : String) (now : Nat) (u : Url)
    (h : cacheGet c key now = some u) : ∃ kv ∈ c, kv.1 = key ∧ kv.2.value = u := by
  unfold cacheGet at h
  cases hf : c.find? (fun kv => kv.1 == key) with
  | none => rw [hf] at h; cases h
  | some kv =>
    rw [hf] at h
    dsimp only at h
    by_cases hn : now < kv.2.expireAt
    · rw [if_pos hn] at h
      injection h with h
      refine ⟨kv, List.mem_of_find?_eq_some hf, ?_, h⟩
      have := List.find?_some hf
      simpa using this
    · rw [if_neg hn] at h; cases h

theorem mem_cacheSet (c : Cache) (key : String) (u : Url) (now ttl : Nat)
    (kv : String × CacheEntry) (h : kv ∈ cacheSet c key u now ttl) :
    kv = (key, { value := u, expireAt := now + ttl }) ∨ (kv ∈ c ∧ kv.1 ≠ key) := by
  unfold cacheSet at h
  rcases List.mem_cons.mp h with rfl | h2
  · left; rfl
  · right
    have hm := List.mem_filter.mp h2
    refine ⟨hm.1, ?_⟩
    simpa using hm.2

theorem processClick_nil (s : Sys) (cid : String) (now : Nat) (h : s.queue = []) :
    processClick s cid now = s := by
  unfold processClick
  rw [h]

theorem bumpIf_matches (v : Url) (tid key : String) :
    matchesKey (if v.id == tid then { v with currentClicks := v.currentClicks + 1 } else v) key =
      matchesKey v key := by
  by_cases h : (v.id == tid) = true
  · rw [if_pos h]
    rfl
  · rw [if_neg h]

theorem bumpIf_id (v : Url) (tid : String) :
    (if v.id == tid then { v with currentClicks := v.currentClicks + 1 } else v).id = v.id := by
  by_cases h : (v.id == tid) = true
  · rw [if_pos h]
  · rw [if_neg h]

theorem bumpIf_max (v : Url) (tid : String) :
    (if v.id == tid then { v with currentClicks := v.currentClicks + 1 } else v).maxClicks =
      v.maxClicks := by
  by_cases h : (v.id == tid) = true
  · rw [if_pos h]
  · rw [if_neg h]

theorem lookup_sound (key lid : String) (N : Nat) (s : Sys) (now ttl : Nat)
    (inv : linkInv key lid N s) (uOpt : Option Url) (c1 : Cache)
    (hl : resolveLookup s key now ttl = (uOpt, c1)) :
    (∀ u, uOpt = some u → u ∈ s.db.urls ∧ u.id = lid) ∧
    (∀ kv ∈ c1, kv.1 = key → kv.2.value ∈ s.db.urls ∧ kv.2.value.id = lid) := by
  obtain ⟨hq, hkey, hlid, huniq, hcache⟩ := inv
  unfold resolveLookup at hl
  cases hg : cacheGet s.cache key now with
  | some v =>
    rw [hg] at hl
    injection hl with h1 h2
    subst h1
    subst h2
    obtain ⟨kv, hkv, hk1, hk2⟩ := cacheGet_mem s.cache key now v hg
    have hv := hcache kv hkv hk1
    rw [hk2] at hv
    exact ⟨(fun u hu => by injection hu with hu; subst hu; exact hv), hcache⟩
  | none =>
    rw [hg] at hl
    cases hdb : getUrlByShortCode s.db key now with
    | some v =>
      rw [hdb] at hl
      injection hl with h1 h2
      subst h1
      subst h2
      have hdb' : s.db.urls.find? (fun w => matchesKey w key && liveAt w now) = some v := hdb
      have hmem := List.mem_of_find?_eq_some hdb'
      have hmk : matchesKey v key = true := by
        have := List.find?_some hdb'
        rw [Bool.and_eq_true] at this
        exact this.1
      have hid := hkey v hmem hmk
      refine ⟨(fun u hu => by injection hu with hu; subst hu; exact ⟨hmem, hid⟩), ?_⟩
      intro kv hkv h1
      rcases mem_cacheSet s.cache key v now ttl kv hkv with rfl | ⟨hold, hne⟩
      · exact ⟨hmem, hid⟩
      · exact absurd h1 hne
    | none =>
      rw [hdb] at hl
      injection hl with h1 h2
      subst h1
      subst h2
      exact ⟨(fun u hu => by cases hu), hcache⟩

theorem linkInv_cache_only (key lid : String) (N : Nat) (s : Sys) (c1 : Cache)
    (inv : linkInv key lid N s)
    (hc : ∀ kv ∈ c1, kv.1 = key → kv.2.value ∈ s.db.urls ∧ kv.2.value.id = lid) :
    linkInv key lid N { s with cache := c1 } :=
  ⟨inv.1, inv.2.1, inv.2.2.1, inv.2.2.2.1, hc⟩

end UrlShortener

namespace UrlShortener

theorem linkInv_resolveSync (key lid : String) (N ttl : Nat) (hN : 1 ≤ N) (s : Sys)
    (op : SyncOp) (inv : linkInv key lid N s) :
    linkInv key lid N (resolveSync s key op ttl).2 := by
  have hq := inv.1
  by_cases hk : isValidShortCodeKey key = true
  case neg =>
    rw [Bool.not_eq_true] at hk
    have hr : redirectToUrl s key op.ip op.time ttl = (.invalidCode, s) := by
      unfold redirectToUrl
      rw [if_pos (by rw [hk]; rfl)]
    simp only [resolveSync, hr]
    rw [processClick_nil s op.clickId op.time hq]
    exact inv
  case pos =>
    rcases redirectToUrl_cases s key op.ip op.time ttl hk with
      ⟨c1, hl, hr⟩ | ⟨u, c1, hl, hcs⟩
    · have hsound := lookup_sound key lid N s op.time ttl inv none c1 hl
      simp only [resolveSync, hr]
      rw [processClick_nil { s with cache := c1 } op.clickId op.time hq]
      exact linkInv_cache_only key lid N s c1 inv hsound.2
    · have hsound := lookup_sound key lid N s op.time ttl inv (some u) c1 hl
      obtain ⟨hu_mem, hu_id⟩ := hsound.1 u rfl
      obtain ⟨hmk, hmax, hcount⟩ := inv.2.2.1 u hu_mem hu_id
      rcases hcs with ⟨he, hr⟩ | ⟨he, ha, hr⟩ | ⟨he, ha, hc, hr⟩ | ⟨he, ha, hc, hr⟩
      · simp only [resolveSync, hr]
        rw [processClick_nil { s with cache := c1 } op.clickId op.time hq]
        exact linkInv_cache_only key lid N s c1 inv hsound.2
      · simp only [resolveSync, hr]
        rw [processClick_nil { s with cache := c1 } op.clickId op.time hq]
        exact linkInv_cache_only key lid N s c1 inv hsound.2
      · simp only [resolveSync, hr]
        rw [processClick_nil { s with cache := c1 } op.clickId op.time hq]
        exact linkInv_cache_only key lid N s c1 inv hsound.2
      · -- success: the click job runs immediately
        have hlt : u.currentClicks < N := by
          unfold ceilingCheck at hc
          rw [hmax] at hc
          simp at hc
          omega
        simp only [resolveSync, hr, processClick, hq, List.nil_append]
        refine ⟨rfl, ?_, ?_, ?_, ?_⟩
        · intro v' hv' hmk'
          rw [recordClick_urls] at hv'
          obtain ⟨v, hv, rfl⟩ := List.mem_map.mp hv'
          rw [bumpIf_id]
          rw [bumpIf_matches] at hmk'
          exact inv.2.1 v hv hmk'
        · intro v' hv' hid'
          rw [recordClick_urls] at hv'
          obtain ⟨v, hv, rfl⟩ := List.mem_map.mp hv'
          rw [bumpIf_id] at hid'
          obtain ⟨hm2, hx2, _⟩ := inv.2.2.1 v hv hid'
          refine ⟨by rw [bumpIf_matches]; exact hm2, by rw [bumpIf_max]; exact hx2, ?_⟩
          have hveq : v = u := inv.2.2.2.1 v hv u hu_mem hid' hu_id
          have hb : (v.id == u.id) = true := by rw [hveq]; simp
          rw [if_pos hb]
          show v.currentClicks + 1 ≤ N
          rw [hveq]
          omega
        · intro v1' h1' v2' h2' hid1 hid2
          rw [recordClick_urls] at h1' h2'
          obtain ⟨v1, hv1, rfl⟩ := List.mem_map.mp h1'
          obtain ⟨v2, hv2, rfl⟩ := List.mem_map.mp h2'
          rw [bumpIf_id] at hid1 hid2
          rw [inv.2.2.2.1 v1 hv1 v2 hv2 hid1 hid2]
        · intro kv hkv h1
          rcases mem_cacheSet c1 key { u with currentClicks := u.currentClicks + 1 }
              op.time ttl kv hkv with rfl | ⟨hold, hne⟩
          · constructor
            · rw [recordClick_urls]
              have hb : (u.id == u.id) = true := by simp
              have heq : (if u.id == u.id then { u with currentClicks := u.currentClicks + 1 }
                  else u) = { u with currentClicks := u.currentClicks + 1 } := by
                rw [if_pos hb]
              rw [← heq]
              exact List.mem_map_of_mem _ hu_mem
            · exact hu_id
          · exact absurd h1 hne

end UrlShortener

namespace UrlShortener

theorem resolveSync_blocked (key lid : String) (N ttl : Nat) (hN : 1 ≤ N) (s : Sys)
    (op : SyncOp) (d : String) (inv : linkInv key lid N s)
    (hfull : ∀ u ∈ s.db.urls, u.id = lid → N ≤ u.currentClicks) :
    (resolveSync s key op ttl).1 ≠ .redirect d := by
  have h1 : (resolveSync s key op ttl).1 = (redirectToUrl s key op.ip op.time ttl).1 := rfl
  rw [h1]
  by_cases hk : isValidShortCodeKey key = true
  case neg =>
    rw [Bool.not_eq_true] at hk
    have hr : redirectToUrl s key op.ip op.time ttl = (.invalidCode, s) := by
      unfold redirectToUrl
      rw [if_pos (by rw [hk]; rfl)]
    rw [hr]
    simp
  case pos =>
    rcases redirectToUrl_cases s key op.ip op.time ttl hk with
      ⟨c1, hl, hr⟩ | ⟨u, c1, hl, hcs⟩
    · rw [hr]; simp
    · rcases hcs with ⟨he, hr⟩ | ⟨he, ha, hr⟩ | ⟨he, ha, hc, hr⟩ | ⟨he, ha, hc, hr⟩
      · rw [hr]; simp
      · rw [hr]; simp
      · rw [hr]; simp
      · exfalso
        have hsound := lookup_sound key lid N s op.time ttl inv (some u) c1 hl
        obtain ⟨hu_mem, hu_id⟩ := hsound.1 u rfl
        obtain ⟨-, hmax, -⟩ := inv.2.2.1 u hu_mem hu_id
        have hge := hfull u hu_mem hu_id
        unfold ceilingCheck at hc
        rw [hmax] at hc
        simp at hc
        omega

/-- Claim C2 (amended): when every successful resolve of the key has its
click job run before the next operation (resolveSync) and the state is
well-formed for the link (linkInv: empty job queue, the key resolves only
to this link, its row carries the ceiling and respects it, the cache only
holds current copies of the row), the persisted click count never exceeds
the ceiling over any sequence of such operations, and once the persisted
count has reached the ceiling no resolve of the key succeeds.  With
deferred click jobs or a lapsed cache entry the source violates both parts
(see the counterexample). -/
theorem C2_ceiling_invariant_sync (key lid : String) (N ttl : Nat) (hN : 1 ≤ N) :
    (∀ s op, linkInv key lid N s → linkInv key lid N (resolveSync s key op ttl).2) ∧
    (∀ s ops, linkInv key lid N s →
      ∀ u ∈ (runSync s key ttl ops).db.urls, u.id = lid → u.currentClicks ≤ N) ∧
    (∀ s op d, linkInv key lid N s →
      (∀ u ∈ s.db.urls, u.id = lid → N ≤ u.currentClicks) →
      (resolveSync s key op ttl).1 ≠ .redirect d) := by
  refine ⟨fun s op inv => linkInv_resolveSync key lid N ttl hN s op inv, ?_,
    fun s op d inv hfull => resolveSync_blocked key lid N ttl hN s op d inv hfull⟩
  intro s ops
  induction ops generalizing s with
  | nil =>
    intro inv u hu hid
    exact (inv.2.2.1 u hu hid).2.2
  | cons op ops ih =>
    intro inv
    exact ih (resolveSync s key op ttl).2 (linkInv_resolveSync key lid N ttl hN s op inv)

/-- Claim C2 counterexample: for the ceiling-2 link, two resolves whose
click jobs are still queued (the second after the cache entry lapsed), then
both jobs, then a third resolve against the still-live but stale cache
entry written by the second resolve, then its job.  The third resolve
succeeds although the persisted count already equals the ceiling, and the
final persisted count is 3 > 2. -/
theorem C2_ceiling_invariant_sync_counterexample :
    cUrl.maxClicks = some 2 ∧
    (redirectToUrl cS0 "abcd1234" "ip1" 0 10).1 = .redirect "http://x.example/" ∧
    (redirectToUrl cS1 "abcd1234" "ip2" 20 10).1 = .redirect "http://x.example/" ∧
    urlById cS4.db "u1" = some { cUrl with currentClicks := 2 } ∧
    (redirectToUrl cS4 "abcd1234" "ip3" 25 10).1 = .redirect "http://x.example/" ∧
    urlById cS6.db "u1" = some { cUrl with currentClicks := 3 } := by
  decide

theorem C2_ceiling_invariant_sync_witness :
    ({ cUrl with currentClicks := 1 } : Url).currentClicks ≤ 2 ∧
    (resolveSync c2Full "abcd1234" { ip := "ip9", time := 50, clickId := "c9" } 10).1 ≠
      .redirect "http://x.example/" :=
  ⟨(C2_ceiling_invariant_sync "abcd1234" "u1" 2 10 (by decide)).2.1 cS0
      [{ ip := "ip1", time := 0, clickId := "c1" }] (by unfold linkInv; decide)
      { cUrl with currentClicks := 1 } (by decide) (by decide),
   (C2_ceiling_invariant_sync "abcd1234" "u1" 2 10 (by decide)).2.2 c2Full
      { ip := "ip9", time := 50, clickId := "c9" } "http://x.example/"
      (by unfold linkInv; decide) (by decide)⟩

end UrlShortener
